import Mathlib

/-!
# Verification of the analytic-metric-app core

Shallow embedding of the credential-lifecycle manager and the event
ingestion / aggregation engine of `saikiran6694/analytic-metric-app`
(files `src/utils/apikey-utils.js`, `src/services/apiKey.service.js`,
`src/services/event.service.js`, `src/controller/event.controller.js`,
schema `src/init.sql`), together with proofs of the specified properties.

Modelling conventions:
* JS strings are `String` (API keys additionally as `List Char` for the
  character-level masking functions).
* Timestamps are `Nat` milliseconds since the epoch; the UTC calendar
  day of a timestamp (`DATE(timestamp)` in SQL, `toISOString().split("T")[0]`
  in JS) is `t / 86400000`.
* The SHA-256 digest from Node's `crypto` library is an external
  dependency, modelled as an explicit function parameter `hash`.
* The connection pool / SQL store is a record of four relations
  (`apps`, `api_keys`, `events`, `event_summaries` — §3 of the design),
  each a list of rows.  A transaction (`BEGIN … COMMIT` / `ROLLBACK`)
  is a function `Db → Except Err (Db × α)`: the error case carries no
  state, so a failed transaction leaves the caller's store unchanged.
* Storage faults that the SQL layer can raise non-deterministically are
  oracle `Bool` parameters.
-/

namespace AnalyticApp

/-! ## ApiKeyUtils (`src/utils/apikey-utils.js`) -/

/-- `extractApiKeyPrefix(apiKey)`: `apiKey.substring(0, 15)` — the first
15 characters of the key (fewer when the key is shorter). -/
def extractApiKeyPrefix (apiKey : List Char) : List Char :=
  apiKey.take 15

/-- `maskApiKey(apiKey)`: the extracted display part followed by
`"*".repeat(apiKey.length - p.length)`. -/
def maskApiKey (apiKey : List Char) : List Char :=
  let p := extractApiKeyPrefix apiKey
  p ++ List.replicate (apiKey.length - p.length) '*'

/-- String form of `maskApiKey`, used where the services store the
`key_prefix` column. -/
def maskApiKeyStr (apiKey : String) : String :=
  String.mk (maskApiKey apiKey.data)

/-! ## Stored rows (`src/init.sql`) -/

/-- a row of `apps` (tenant registry). -/
structure App where
  id : String
  app_name : String
  app_url : String
  user_id : String
  created_at : Nat
  deriving Repr, DecidableEq

/-- a row of `api_keys` (credential store). `expires_at` is always set by
the issuing code (`NOW() + INTERVAL '1 year'`). -/
structure ApiKeyRow where
  id : String
  app_id : String
  key_hash : String
  key_prefix : String
  is_active : Bool
  last_used_at : Option Nat
  expires_at : Nat
  created_at : Nat
  revoked_at : Option Nat
  deriving Repr, DecidableEq

/-- a row of `events`.  `metadata` is kept as an opaque optional blob. -/
structure EventRow where
  id : String
  app_id : String
  event_type : String
  url : Option String
  referrer : Option String
  device : Option String
  ip_address : Option String
  timestamp : Nat
  metadata : Option String
  session_id : Option String
  user_id : Option String
  created_at : Nat
  deriving Repr, DecidableEq

/-- a row of `event_summaries`.  `device_data` is the JSONB object as an
association list (key, count). -/
structure SummaryRow where
  app_id : String
  event_type : String
  date : Nat
  total_count : Nat
  unique_users : Nat
  device_data : List (String × Nat)
  created_at : Nat
  updated_at : Nat
  deriving Repr, DecidableEq

/-- the relational store of record. -/
structure Db where
  apps : List App
  api_keys : List ApiKeyRow
  events : List EventRow
  summaries : List SummaryRow
  deriving Repr, DecidableEq

/-- milliseconds per UTC day. -/
def msPerDay : Nat := 86400000

/-- UTC-day truncation of a timestamp: `DATE(timestamp)` /
`new Date(t).toISOString().split("T")[0]`. -/
def dayOf (t : Nat) : Nat := t / msPerDay

/-! ## ApiKeyService (`src/services/apiKey.service.js`) -/

/-- `NOW() + INTERVAL '1 year'` in milliseconds. -/
def oneYear : Nat := 31536000000

/-- JS `String.prototype.toLowerCase` (character-wise lower-casing;
kernel-computable, unlike the byte-based library `String.toLower`). -/
def toLowerStr (s : String) : String := String.mk (s.data.map Char.toLower)

/-- whitespace stripped by JS `String.prototype.trim`. -/
def isWhitespaceChar (c : Char) : Bool :=
  c == ' ' || c == '\t' || c == '\n' || c == '\r'

/-- JS `String.prototype.trim`: drop whitespace from both ends. -/
def trimStr (s : String) : String :=
  String.mk (((s.data.dropWhile isWhitespaceChar).reverse.dropWhile
    isWhitespaceChar).reverse)

/-- URL normalization in `registerApp`: `appUrl.trim().toLowerCase()`. -/
def normalizeUrl (u : String) : String := toLowerStr (trimStr u)

/-- the error taxonomy of the credential services (§7 of the design;
in the source these are `throw new Error(...)` with the corresponding
messages, plus storage-layer faults). -/
inductive ApiErr where
  | DuplicateRegistration
  | NotFoundOrAlreadyInactive
  | NotFoundOrUnauthorized
  | PersistenceFailure
  deriving Repr, DecidableEq

/-- result record of `registerApp`. -/
structure RegResult where
  app_id : String
  app_name : String
  app_url : String
  api_key : String
  created_at : Nat
  deriving Repr, DecidableEq

/-- result record of `revokeApiKey` (the source also formats a masked
display prefix and a message string; they carry no state). -/
structure RevokeResult where
  app_id : String
  revoked_at : Nat
  deriving Repr, DecidableEq

/-- the joined row returned by `validateApiKey`
(`ak.id, ak.app_id, ak.expires_at, a.app_name, a.app_url, a.user_id`). -/
structure TenantCtx where
  key_id : String
  app_id : String
  expires_at : Nat
  app_name : String
  app_url : String
  user_id : String
  deriving Repr, DecidableEq

/-- result record of `regenerateApiKey`. -/
structure RegenResult where
  app_id : String
  api_key : String
  created_at : Nat
  deriving Repr, DecidableEq

/-- `ROLLBACK` semantics: the state seen by the caller after running a
transaction — the new store on `COMMIT`, the unchanged old store on a
rolled-back failure. -/
def runTxn {E α : Type} (db : Db) (r : Except E (Db × α)) : Db :=
  match r with
  | .ok (db2, _) => db2
  | .error _ => db

/-- `ApiKeyService.registerApp(appName, appUrl, userId)`.

`hash` is the SHA-256 digest (external `crypto` library); `newAppId`,
`newKeyId` are the `gen_random_uuid()` draws; `newKey` is the
`generateApiKey()` draw; `storageOk = false` models a storage fault in
one of the two INSERTs after the duplicate check (the `catch` branch
issues `ROLLBACK`, so the error case carries no state). -/
def registerApp (hash : String → String) (db : Db)
    (appName appUrl userId newAppId newKeyId newKey : String) (now : Nat)
    (storageOk : Bool) : Except ApiErr (Db × RegResult) :=
  let normalizedUrl := normalizeUrl appUrl
  if db.apps.any (fun a => a.user_id == userId && toLowerStr a.app_url == normalizedUrl) then
    .error .DuplicateRegistration
  else if storageOk = false then
    .error .PersistenceFailure
  else
    let app : App :=
      { id := newAppId, app_name := appName, app_url := normalizedUrl,
        user_id := userId, created_at := now }
    let keyRow : ApiKeyRow :=
      { id := newKeyId, app_id := newAppId, key_hash := hash newKey,
        key_prefix := maskApiKeyStr newKey, is_active := true,
        last_used_at := none, expires_at := now + oneYear,
        created_at := now, revoked_at := none }
    .ok ({ db with apps := db.apps ++ [app], api_keys := db.api_keys ++ [keyRow] },
         { app_id := newAppId, app_name := appName, app_url := normalizedUrl,
           api_key := newKey, created_at := now })

/-- `ApiKeyService.revokeApiKey(apiKey)`: one UPDATE setting
`is_active = false, revoked_at = NOW()` on rows with
`key_hash = hash(apiKey) AND is_active = true`; error when no row was
updated. -/
def revokeApiKey (hash : String → String) (db : Db) (apiKey : String)
    (now : Nat) : Except ApiErr (Db × RevokeResult) :=
  let keyHash := hash apiKey
  match db.api_keys.filter (fun k => k.key_hash == keyHash && k.is_active) with
  | [] => .error .NotFoundOrAlreadyInactive
  | r :: _ =>
    .ok ({ db with api_keys := db.api_keys.map (fun k =>
            if k.key_hash == keyHash && k.is_active then
              { k with is_active := false, revoked_at := some now }
            else k) },
         { app_id := r.app_id, revoked_at := now })

/-- `ApiKeyService.validateApiKey(apiKey)`: SELECT joined with `apps`
on `key_hash = hash(apiKey) AND is_active AND expires_at > NOW()`;
`null` when no row matches.  On a match the `last_used_at` update is
dispatched without being awaited and its rejection is caught; whether it
lands is the oracle `updateOk`, which by construction cannot influence
the returned value. -/
def validateApiKey (hash : String → String) (db : Db) (apiKey : String)
    (now : Nat) (updateOk : Bool) : Option TenantCtx × Db :=
  let keyHash := hash apiKey
  let rows := db.api_keys.filter (fun k =>
    k.key_hash == keyHash && k.is_active && decide (now < k.expires_at))
  let joined := rows.filterMap (fun k =>
    (db.apps.find? (fun a => a.id == k.app_id)).map (fun a =>
      ({ key_id := k.id, app_id := k.app_id, expires_at := k.expires_at,
         app_name := a.app_name, app_url := a.app_url,
         user_id := a.user_id } : TenantCtx)))
  match joined with
  | [] => (none, db)
  | r :: _ =>
    (some r,
     if updateOk then
       { db with api_keys := db.api_keys.map (fun k =>
           if k.id == r.key_id then { k with last_used_at := some now } else k) }
     else db)

/-- `ApiKeyService.regenerateApiKey(appId, userId)`: inside one
transaction, verify ownership, deactivate every active key of the app
(`revoked_at = NOW()`), insert a fresh active key.  `storageOk = false`
models a storage fault in the INSERT; the `catch` branch issues
`ROLLBACK`, so the error case carries no state. -/
def regenerateApiKey (hash : String → String) (db : Db)
    (appId userId newKeyId newKey : String) (now : Nat) (storageOk : Bool) :
    Except ApiErr (Db × RegenResult) :=
  if db.apps.any (fun a => a.id == appId && a.user_id == userId) = false then
    .error .NotFoundOrUnauthorized
  else if storageOk = false then
    .error .PersistenceFailure
  else
    let deactivated := db.api_keys.map (fun k =>
      if k.app_id == appId && k.is_active then
        { k with is_active := false, revoked_at := some now }
      else k)
    let newRow : ApiKeyRow :=
      { id := newKeyId, app_id := appId, key_hash := hash newKey,
        key_prefix := maskApiKeyStr newKey, is_active := true,
        last_used_at := none, expires_at := now + oneYear,
        created_at := now, revoked_at := none }
    .ok ({ db with api_keys := deactivated ++ [newRow] },
         { app_id := appId, api_key := newKey, created_at := now })

/-! ## EventService (`src/services/event.service.js`) and the ingest
controller (`src/controller/event.controller.js`) -/

/-- the validated ingest payload (§6 boundary contract). -/
structure EventData where
  event : String
  url : Option String
  referrer : Option String
  device : Option String
  ipAddress : Option String
  timestamp : Option Nat
  metadata : Option String
  session_id : Option String
  user_id : Option String
  deriving Repr, DecidableEq

/-- storage-layer outcome of the raw-event INSERT. -/
inductive SqlErr where
  | NotNullViolation
  | StorageFault
  deriving Repr, DecidableEq

/-- the single error `collectEvent` rethrows
(`throw new Error("Failed to collect event")`). -/
inductive CollectErr where
  | FailedToCollect
  deriving Repr, DecidableEq

/-- the events matching `(app_id, event_type, DATE(timestamp))`, the scan
underlying both CTEs of `updateEventSummary`. -/
def matchingEvents (events : List EventRow) (appId eventType : String)
    (date : Nat) : List EventRow :=
  events.filter (fun e =>
    e.app_id == appId && e.event_type == eventType && dayOf e.timestamp == date)

/-- `COUNT(DISTINCT user_id) FILTER (WHERE user_id IS NOT NULL)`. -/
def countDistinctUsers (l : List EventRow) : Nat :=
  (l.filterMap (fun e => e.user_id)).dedup.length

/-- the `device_stats` subquery: `GROUP BY device` with `COUNT(*)` per
group (`NULL` is its own group), in order of first appearance. -/
def deviceGroups (l : List EventRow) : List (Option String × Nat) :=
  (l.map (fun e => e.device)).dedup.map (fun d =>
    (d, (l.map (fun e => e.device)).count d))

/-- JSONB object construction: a later duplicate key overwrites the
earlier value (the value of the first-kept position is replaced). -/
def jsonbInsert (m : List (String × Nat)) (k : String) (v : Nat) :
    List (String × Nat) :=
  if m.any (fun p => p.1 == k) then
    m.map (fun p => if p.1 == k then (k, v) else p)
  else m ++ [(k, v)]

/-- `jsonb_object_agg` over a list of (key, count) pairs. -/
def jsonbObjectAgg (l : List (String × Nat)) : List (String × Nat) :=
  l.foldl (fun m p => jsonbInsert m p.1 p.2) []

/-- the `device_data` value: `jsonb_object_agg(COALESCE(device, 'unknown'),
device_count)` over the device groups, `'{}'::jsonb` when there are no
events. -/
def deviceData (l : List EventRow) : List (String × Nat) :=
  jsonbObjectAgg ((deviceGroups l).map (fun p => (p.1.getD "unknown", p.2)))

/-- the `(app_id, event_type, date)` uniqueness key of `event_summaries`. -/
def sameKey (appId eventType : String) (date : Nat) (s : SummaryRow) : Bool :=
  s.app_id == appId && s.event_type == eventType && s.date == date

/-- `INSERT ... ON CONFLICT (app_id, event_type, date) DO UPDATE SET
total_count, unique_users, device_data, updated_at = NOW()`:
insert if the key is absent, otherwise overwrite the aggregate fields and
the update time of the conflicting row (its `id`/`created_at` persist). -/
def upsertSummary (l : List SummaryRow) (appId eventType : String) (date : Nat)
    (total uniq : Nat) (ddata : List (String × Nat)) (now : Nat) :
    List SummaryRow :=
  if l.any (sameKey appId eventType date) then
    l.map (fun s =>
      if sameKey appId eventType date s then
        { s with total_count := total, unique_users := uniq,
                 device_data := ddata, updated_at := now }
      else s)
  else
    l ++ [{ app_id := appId, event_type := eventType, date := date,
            total_count := total, unique_users := uniq, device_data := ddata,
            created_at := now, updated_at := now }]

/-- `EventService.updateEventSummary(appId, eventType, timestamp)`:
recompute the full aggregate for `(appId, eventType, UTC-day(timestamp))`
from the raw events and upsert it.  Its own `catch` swallows every error,
so the operation never throws. -/
def updateEventSummary (db : Db) (appId eventType : String)
    (timestamp : Nat) (now : Nat) : Db :=
  let date := dayOf timestamp
  let matching := matchingEvents db.events appId eventType date
  { db with summaries :=
      (upsertSummary db.summaries appId eventType date
        matching.length (countDistinctUsers matching) (deviceData matching) now) }

/-- the raw-event INSERT of `collectEvent`.  The statement lists the
`timestamp` column explicitly (`$7`); the driver serializes an omitted
(`undefined`) payload timestamp as SQL `NULL`, and an explicit `NULL`
bypasses the `DEFAULT CURRENT_TIMESTAMP` of the `NOT NULL` column
`events.timestamp` (`init.sql` line 44), so the INSERT fails with a
not-null violation.  `insertOk = false` models any other storage fault. -/
def insertEvent (db : Db) (appId : String) (d : EventData) (newId : String)
    (now : Nat) (insertOk : Bool) : Except SqlErr (Db × EventRow) :=
  if insertOk = false then .error .StorageFault
  else
    match d.timestamp with
    | none => .error .NotNullViolation
    | some ts =>
      let row : EventRow :=
        { id := newId, app_id := appId, event_type := d.event, url := d.url,
          referrer := d.referrer, device := d.device, ip_address := d.ipAddress,
          timestamp := ts, metadata := d.metadata, session_id := d.session_id,
          user_id := d.user_id, created_at := now }
      .ok ({ db with events := db.events ++ [row] }, row)

/-- `EventService.collectEvent(appId, eventData)`: attempt the durable
INSERT; on failure rethrow the single opaque error (the failed
single-statement INSERT leaves no partial state).  On success dispatch
`updateEventSummary(appId, event, timestamp || new Date())` without
awaiting it; whether that fire-and-forget recompute lands is the oracle
`summaryOk` — its rejection is caught (`.catch`) and `updateEventSummary`
additionally swallows its own errors, so it can only leave the summaries
unchanged, never fail the caller. -/
def collectEvent (db : Db) (appId : String) (d : EventData) (newId : String)
    (now : Nat) (insertOk summaryOk : Bool) : Db × Except CollectErr EventRow :=
  match insertEvent db appId d newId now insertOk with
  | .error _ => (db, .error .FailedToCollect)
  | .ok (db1, row) =>
    let db2 :=
      if summaryOk then
        updateEventSummary db1 appId d.event (d.timestamp.getD now) now
      else db1
    (db2, .ok row)

/-- `eventCollectController`: the boundary layer builds the payload with
`ipAddress: req.body.ipAddress || req.ip` — the transport-observed origin
when the caller omits the IP — and passes the body timestamp through
unchanged. -/
def controllerEventData (body : EventData) (reqIp : String) : EventData :=
  { body with ipAddress := some (body.ipAddress.getD reqIp) }

/-- a sequence of recomputations of the same summary key at the given
clock times (each is the fire-and-forget recompute dispatched by some
ingest or invoked directly). -/
def iterUpdate (db : Db) (appId eventType : String) (ts : Nat)
    (times : List Nat) : Db :=
  times.foldl (fun d now => updateEventSummary d appId eventType ts now) db

/-! ## Concrete fixtures (used by witnesses and counterexamples) -/

/-- stand-in digest function for concrete evaluations (the claims hold
for every digest function, SHA-256 included). -/
def hId : String → String := fun s => s

/-- a registered tenant. -/
def app1 : App :=
  { id := "a1", app_name := "T", app_url := "https://x.com",
    user_id := "u1", created_at := 0 }

/-- an active credential of `app1`. -/
def key1 : ApiKeyRow :=
  { id := "k1", app_id := "a1", key_hash := "sbx_secret1",
    key_prefix := maskApiKeyStr "sbx_secret1", is_active := true,
    last_used_at := none, expires_at := 100, created_at := 0,
    revoked_at := none }

/-- a store holding `app1` with its active credential `key1`. -/
def db1 : Db := { apps := [app1], api_keys := [key1], events := [], summaries := [] }

/-- `db1` after revoking `key1` at time 5. -/
def db1r : Db :=
  { db1 with api_keys := [{ key1 with is_active := false, revoked_at := some 5 }] }

/-- a concrete validated ingest payload carrying a timestamp. -/
def evPayload1 : EventData :=
  { event := "click", url := some "https://x.com/p", referrer := none,
    device := some "mobile", ipAddress := some "203.0.113.9",
    timestamp := some 30, metadata := none, session_id := none,
    user_id := some "u1" }

/-- the row stored for `evPayload1` by `collectEvent` at capture time 40. -/
def evRow1 : EventRow :=
  { id := "e1", app_id := "a1", event_type := "click",
    url := some "https://x.com/p", referrer := none,
    device := some "mobile", ip_address := some "203.0.113.9",
    timestamp := 30, metadata := none, session_id := none,
    user_id := some "u1", created_at := 40 }

/-- a minimal ingest body: only the event type, everything else omitted
(the shape of the repository's own "should handle minimal event data"
test). -/
def minimalBody : EventData :=
  { event := "minimal_event", url := none, referrer := none, device := none,
    ipAddress := none, timestamp := none, metadata := none,
    session_id := none, user_id := none }

/-- a `"click"` event of user `"u1"` on UTC day 0 with device mobile. -/
def evA : EventRow :=
  { id := "eA", app_id := "a1", event_type := "click", url := none,
    referrer := none, device := some "mobile", ip_address := none,
    timestamp := 1000, metadata := none, session_id := none,
    user_id := some "u1", created_at := 1000 }

/-- a `"click"` event of user `"u2"` on UTC day 0 with device mobile. -/
def evB : EventRow :=
  { id := "eB", app_id := "a1", event_type := "click", url := none,
    referrer := none, device := some "mobile", ip_address := none,
    timestamp := 2000, metadata := none, session_id := none,
    user_id := some "u2", created_at := 2000 }

/-- the store with the two-click scenario of §8 of the design. -/
def dbEv : Db :=
  { apps := [app1], api_keys := [key1], events := [evA, evB], summaries := [] }

/-- the credential issued when rotating `app1` at time 7. -/
def key2 : ApiKeyRow :=
  { id := "k2", app_id := "a1", key_hash := "sbx_secret2",
    key_prefix := maskApiKeyStr "sbx_secret2", is_active := true,
    last_used_at := none, expires_at := 7 + oneYear, created_at := 7,
    revoked_at := none }

/-- `db1` after rotating the credential of `app1` at time 7. -/
def db1g : Db :=
  { db1 with api_keys :=
      [{ key1 with is_active := false, revoked_at := some 7 }, key2] }

end AnalyticApp

namespace AnalyticApp

/-! ## C9 -/

/-- C9: for every API key string `k`, `maskApiKey k` starts with
`extractApiKeyPrefix k` (the 15-character display part), has the same
length as `k`, and every character at position ≥ 15 is the placeholder
`'*'`. -/
theorem maskApiKey_masks (k : List Char) :
    List.IsPrefix ( extractApiKeyPrefix k) (maskApiKey k) ∧
    (maskApiKey k).length = k.length ∧
    ∀ i : Nat, 15 ≤ i → ∀ h : i < (maskApiKey k).length,
      (maskApiKey k).get ⟨i, h⟩ = '*' := by
  refine ⟨⟨List.replicate (k.length - ( extractApiKeyPrefix k).length) '*', rfl⟩, ?_, ?_⟩
  · have hle : ( extractApiKeyPrefix k).length ≤ k.length := by
      simp [extractApiKeyPrefix]
    simp only [maskApiKey, List.length_append, List.length_replicate]
    omega
  · intro i hi h
    have hple : ( extractApiKeyPrefix k).length ≤ 15 := by
      simp [extractApiKeyPrefix, List.length_take]
    have hlen : (maskApiKey k).length =
        ( extractApiKeyPrefix k).length + (k.length - ( extractApiKeyPrefix k).length) := by
      simp [maskApiKey, List.length_append, List.length_replicate]
    have hige : ( extractApiKeyPrefix k).length ≤ i := le_trans hple hi
    have h2 : i - ( extractApiKeyPrefix k).length <
        (List.replicate (k.length - ( extractApiKeyPrefix k).length) '*').length := by
      simp only [List.length_replicate]
      omega
    have : (maskApiKey k).get ⟨i, h⟩ =
        (List.replicate (k.length - ( extractApiKeyPrefix k).length) '*').get
          ⟨i - ( extractApiKeyPrefix k).length, h2⟩ := by
      simp only [maskApiKey, List.get_eq_getElem]
      exact List.getElem_append_right hige
    rw [this]
    simp [List.get_eq_getElem, List.getElem_replicate]

/-- Witness for C9: evaluation at a concrete 20-character key. -/
theorem maskApiKey_masks_witness :
    List.IsPrefix ( extractApiKeyPrefix "sbx_ABCDEFGHIJKLMNOP".data)
      (maskApiKey "sbx_ABCDEFGHIJKLMNOP".data) ∧
    (maskApiKey "sbx_ABCDEFGHIJKLMNOP".data).length = "sbx_ABCDEFGHIJKLMNOP".data.length ∧
    ∀ i : Nat, 15 ≤ i → ∀ h : i < (maskApiKey "sbx_ABCDEFGHIJKLMNOP".data).length,
      (maskApiKey "sbx_ABCDEFGHIJKLMNOP".data).get ⟨i, h⟩ = '*' :=
  maskApiKey_masks "sbx_ABCDEFGHIJKLMNOP".data

end AnalyticApp

namespace AnalyticApp

/-! ## C4 -/

/-- C4: `revokeApiKey` fails with the single error
`NotFoundOrAlreadyInactive` exactly when no active credential row matches
the hash of the input (the same observable error whether the key never
existed or was already revoked); on success every matching active row is
set inactive with its revocation time, afterwards no credential with that
hash is active, and revoking the same key again necessarily yields the
same error. -/
theorem revokeApiKey_spec (hash : String → String) (db : Db)
    (apiKey : String) (now now2 : Nat) :
    (revokeApiKey hash db apiKey now = .error .NotFoundOrAlreadyInactive ↔
      ¬ ∃ k ∈ db.api_keys, k.key_hash = hash apiKey ∧ k.is_active = true) ∧
    (∀ db2 res, revokeApiKey hash db apiKey now = .ok (db2, res) →
      (∀ k ∈ db.api_keys, k.key_hash = hash apiKey → k.is_active = true →
        ({ k with is_active := false, revoked_at := some now } : ApiKeyRow) ∈ db2.api_keys) ∧
      (∀ k ∈ db2.api_keys, k.key_hash = hash apiKey → k.is_active = false) ∧
      revokeApiKey hash db2 apiKey now2 = .error .NotFoundOrAlreadyInactive) := by
  cases hf : db.api_keys.filter (fun k => k.key_hash == hash apiKey && k.is_active) with
  | nil =>
    have hne : ¬ ∃ k ∈ db.api_keys, k.key_hash = hash apiKey ∧ k.is_active = true := by
      rintro ⟨k, hk, h1, h2⟩
      have hmem : k ∈ db.api_keys.filter
          (fun k => k.key_hash == hash apiKey && k.is_active) :=
        List.mem_filter.2 ⟨hk, by simp [h1, h2]⟩
      rw [hf] at hmem
      exact absurd hmem (List.not_mem_nil k)
    refine ⟨⟨fun _ => hne, fun _ => ?_⟩, ?_⟩
    · simp only [revokeApiKey, hf]
    · intro db2 res h
      simp only [revokeApiKey, hf] at h
      exact Except.noConfusion h
  | cons r t =>
    constructor
    · constructor
      · intro he
        simp only [revokeApiKey, hf] at he
        exact Except.noConfusion he
      · intro hne
        exfalso
        apply hne
        have hr : r ∈ db.api_keys.filter
            (fun k => k.key_hash == hash apiKey && k.is_active) := by
          rw [hf]; exact List.mem_cons_self r t
        have hm := List.mem_filter.1 hr
        have hb : r.key_hash = hash apiKey ∧ r.is_active = true := by
          simpa using hm.2
        exact ⟨r, hm.1, hb.1, hb.2⟩
    · intro db2 res h
      simp only [revokeApiKey, hf, Except.ok.injEq, Prod.mk.injEq] at h
      obtain ⟨h3, h4⟩ := h
      subst h3
      have hb : ∀ k ∈ (db.api_keys.map (fun k =>
          if k.key_hash == hash apiKey && k.is_active then
            { k with is_active := false, revoked_at := some now }
          else k)), k.key_hash = hash apiKey → k.is_active = false := by
        intro k hk h1
        obtain ⟨k0, hk0, hfk⟩ := List.mem_map.1 hk
        by_cases h0 : (k0.key_hash == hash apiKey && k0.is_active) = true
        · rw [← hfk]; simp [h0]
        · have hfk2 : (if k0.key_hash == hash apiKey && k0.is_active then
              { k0 with is_active := false, revoked_at := some now }
            else k0) = k0 := by simp [h0]
          rw [hfk2] at hfk
          subst hfk
          by_contra hbc
          have hb2 : k0.is_active = true := by
            cases hact : k0.is_active with
            | true => rfl
            | false => exact absurd hact hbc
          exact h0 (by simp [h1, hb2])
      refine ⟨?_, ?_, ?_⟩
      · intro k hk h1 h2
        have hcond : (k.key_hash == hash apiKey && k.is_active) = true := by
          simp [h1, h2]
        have hm := List.mem_map_of_mem (fun k =>
          if k.key_hash == hash apiKey && k.is_active then
            { k with is_active := false, revoked_at := some now }
          else k) hk
        simpa [hcond] using hm
      · intro k hk h1
        exact hb k (by simpa using hk) h1
      · have hnil : ((db.api_keys.map (fun k =>
            if k.key_hash == hash apiKey && k.is_active then
              { k with is_active := false, revoked_at := some now }
            else k)).filter
              (fun k => k.key_hash == hash apiKey && k.is_active)) = [] := by
          apply List.filter_eq_nil_iff.2
          intro k hk hP
          have hP2 : k.key_hash = hash apiKey ∧ k.is_active = true := by
            simpa using hP
          have := hb k hk hP2.1
          rw [hP2.2] at this
          exact absurd this (by decide)
        simp only [revokeApiKey]
        rw [hnil]

/-- Witness for C4: revoking the concrete active credential `key1` in
`db1` deactivates it with revocation time 5, and a second revocation
fails with `NotFoundOrAlreadyInactive`. -/
theorem revokeApiKey_spec_witness :
    ({ key1 with is_active := false, revoked_at := some 5 } : ApiKeyRow) ∈ db1r.api_keys ∧
    revokeApiKey hId db1r "sbx_secret1" 9 = .error .NotFoundOrAlreadyInactive := by
  have heq : revokeApiKey hId db1 "sbx_secret1" 5 =
      .ok (db1r, { app_id := "a1", revoked_at := 5 }) := by rfl
  have h := (revokeApiKey_spec hId db1 "sbx_secret1" 5 9).2 db1r
    { app_id := "a1", revoked_at := 5 } heq
  exact ⟨h.1 key1 (by simp [db1]) rfl rfl, h.2.2⟩

end AnalyticApp

namespace AnalyticApp

/-! ## C1 -/

/-- C1: after a successful `regenerateApiKey(appId, userId)`, the active
credentials of that app are exactly the newly issued row, and every
credential of the app that was active before the call is present
deactivated with its revocation timestamp set to the rotation time; the
deactivation and issuance run in one transaction, so a failing call
leaves the prior store unchanged (`ROLLBACK`). -/
theorem regenerateApiKey_spec (hash : String → String) (db : Db)
    (appId userId newKeyId newKey : String) (now : Nat) (storageOk : Bool) :
    (∀ db2 res,
      regenerateApiKey hash db appId userId newKeyId newKey now storageOk = .ok (db2, res) →
      (db2.api_keys.filter (fun k => k.app_id == appId && k.is_active)) =
        [{ id := newKeyId, app_id := appId, key_hash := hash newKey,
           key_prefix := maskApiKeyStr newKey, is_active := true,
           last_used_at := none, expires_at := now + oneYear,
           created_at := now, revoked_at := none }] ∧
      (∀ k ∈ db.api_keys, k.app_id = appId → k.is_active = true →
        ({ k with is_active := false, revoked_at := some now } : ApiKeyRow) ∈ db2.api_keys)) ∧
    (∀ e, regenerateApiKey hash db appId userId newKeyId newKey now storageOk = .error e →
      runTxn db (regenerateApiKey hash db appId userId newKeyId newKey now storageOk) = db) := by
  constructor
  · intro db2 res h
    by_cases hA : db.apps.any (fun a => a.id == appId && a.user_id == userId) = false
    · simp [regenerateApiKey, hA] at h
    · by_cases hS : storageOk = false
      · simp [regenerateApiKey, hA, hS] at h
      · simp only [regenerateApiKey] at h
        rw [if_neg hA, if_neg hS] at h
        injection h with h5
        injection h5 with h3 h4
        subst h3
        constructor
        · have hmapnil : ((db.api_keys.map (fun k =>
              if k.app_id == appId && k.is_active then
                { k with is_active := false, revoked_at := some now }
              else k)).filter (fun k => k.app_id == appId && k.is_active)) = [] := by
            apply List.filter_eq_nil_iff.2
            intro k hk hP
            obtain ⟨k0, hk0, hfk⟩ := List.mem_map.1 hk
            by_cases h0 : (k0.app_id == appId && k0.is_active) = true
            · rw [← hfk] at hP
              simp [h0] at hP
            · have hid : (if k0.app_id == appId && k0.is_active then
                  ({ k0 with is_active := false, revoked_at := some now } : ApiKeyRow)
                else k0) = k0 := by simp [h0]
              rw [hid] at hfk
              subst hfk
              exact h0 hP
          dsimp only
          rw [List.filter_append, hmapnil]
          simp
        · intro k hk h1 h2
          have hcond : (k.app_id == appId && k.is_active) = true := by simp [h1, h2]
          have hm := List.mem_map_of_mem (fun k =>
            if k.app_id == appId && k.is_active then
              ({ k with is_active := false, revoked_at := some now } : ApiKeyRow)
            else k) hk
          have hm2 := List.mem_append_left
            [{ id := newKeyId, app_id := appId, key_hash := hash newKey,
               key_prefix := maskApiKeyStr newKey, is_active := true,
               last_used_at := none, expires_at := now + oneYear,
               created_at := now, revoked_at := none }] hm
          simpa [hcond] using hm2
  · intro e h
    simp [runTxn, h]

/-- Witness for C1: rotating the credential of `app1` in `db1` at time 7
leaves `key2` as the only active credential of the app, with the old
`key1` kept deactivated and stamped `revoked_at = 7`. -/
theorem regenerateApiKey_spec_witness :
    (db1g.api_keys.filter (fun k => k.app_id == "a1" && k.is_active)) = [key2] ∧
    ({ key1 with is_active := false, revoked_at := some 7 } : ApiKeyRow) ∈ db1g.api_keys := by
  have heq : regenerateApiKey hId db1 "a1" "u1" "k2" "sbx_secret2" 7 true =
      .ok (db1g, { app_id := "a1", api_key := "sbx_secret2", created_at := 7 }) := by rfl
  have h := (regenerateApiKey_spec hId db1 "a1" "u1" "k2" "sbx_secret2" 7 true).1
    db1g { app_id := "a1", api_key := "sbx_secret2", created_at := 7 } heq
  refine ⟨?_, h.2 key1 (by simp [db1]) rfl rfl⟩
  rw [h.1]
  rfl

end AnalyticApp

namespace AnalyticApp

/-! ## C7 -/

/-- C7: `registerApp` fails with `DuplicateRegistration` exactly when an
app already exists for the same (owner, normalized URL) pair, where
normalization is trimming plus lower-casing; and any failing registration
is rolled back as a whole (`ROLLBACK`), leaving the store unchanged.

The hypothesis `hnorm` is the storage invariant of the `apps` relation:
every stored `app_url` was written by `registerApp` itself as
`normalizeUrl` output, hence is fixed by both `normalizeUrl` and
`toLower` (the duplicate check compares `LOWER(app_url)` against the
normalized input). -/
theorem registerApp_spec (hash : String → String) (db : Db)
    (appName appUrl userId newAppId newKeyId newKey : String) (now : Nat)
    (storageOk : Bool)
    (hnorm : ∀ a ∈ db.apps, normalizeUrl a.app_url = a.app_url ∧
      toLowerStr a.app_url = a.app_url) :
    (registerApp hash db appName appUrl userId newAppId newKeyId newKey now storageOk =
        .error .DuplicateRegistration ↔
      ∃ a ∈ db.apps, a.user_id = userId ∧ normalizeUrl a.app_url = normalizeUrl appUrl) ∧
    (∀ e, registerApp hash db appName appUrl userId newAppId newKeyId newKey now storageOk =
        .error e →
      runTxn db (registerApp hash db appName appUrl userId newAppId newKeyId newKey now storageOk) = db) := by
  constructor
  · constructor
    · intro h
      by_cases hg : db.apps.any
          (fun a => a.user_id == userId && toLowerStr a.app_url == normalizeUrl appUrl) = true
      · obtain ⟨a, ha, hab⟩ := List.any_eq_true.1 hg
        have hab2 : a.user_id = userId ∧ toLowerStr a.app_url = normalizeUrl appUrl := by
          simpa using hab
        refine ⟨a, ha, hab2.1, ?_⟩
        rw [(hnorm a ha).1, ← (hnorm a ha).2]
        exact hab2.2
      · exfalso
        simp only [registerApp] at h
        rw [if_neg hg] at h
        by_cases hS : storageOk = false
        · rw [if_pos hS] at h
          have := Except.error.inj h
          exact ApiErr.noConfusion this
        · rw [if_neg hS] at h
          exact Except.noConfusion h
    · rintro ⟨a, ha, hu, hn⟩
      have hg : db.apps.any
          (fun a => a.user_id == userId && toLowerStr a.app_url == normalizeUrl appUrl) = true := by
        apply List.any_eq_true.2
        refine ⟨a, ha, ?_⟩
        have h2 : toLowerStr a.app_url = normalizeUrl appUrl := by
          rw [(hnorm a ha).1] at hn
          rw [(hnorm a ha).2]
          exact hn
        simp [hu, h2]
      simp only [registerApp]
      rw [if_pos hg]
  · intro e h
    simp [runTxn, h]

/-- Witness for C7: registering the URL `"https://X.com"` (which trims
and lower-cases to the stored `"https://x.com"` of `app1`) for the same
owner `"u1"` fails with `DuplicateRegistration`, and the failing call
leaves the store `db1` unchanged. -/
theorem registerApp_spec_witness :
    registerApp hId db1 "T2" "https://X.com" "u1" "a2" "k9" "sbx_new" 3 true =
      .error .DuplicateRegistration ∧
    runTxn db1 (registerApp hId db1 "T2" "https://X.com" "u1" "a2" "k9" "sbx_new" 3 true) = db1 := by
  have hnorm : ∀ a ∈ db1.apps, normalizeUrl a.app_url = a.app_url ∧
      toLowerStr a.app_url = a.app_url := by decide
  have h := registerApp_spec hId db1 "T2" "https://X.com" "u1" "a2" "k9" "sbx_new" 3 true hnorm
  have he := h.1.mpr ⟨app1, by simp [db1], rfl, by decide⟩
  exact ⟨he, h.2 .DuplicateRegistration he⟩

end AnalyticApp

namespace AnalyticApp

/-! ## C5 -/

/-- C5: `validateApiKey` returns absent when every credential matching
the hash of the input is revoked (inactive) or expired; it returns the
owning tenant context when the unique credential with that hash
(`key_hash` is UNIQUE) is active and unexpired and its owning app row
exists (enforced by the foreign key); and the returned value is
independent of whether the asynchronously dispatched last-used-timestamp
update succeeds. -/
theorem validateApiKey_spec (hash : String → String) (db : Db)
    (apiKey : String) (now : Nat) :
    ((∀ k ∈ db.api_keys, k.key_hash = hash apiKey →
        k.is_active = false ∨ k.expires_at ≤ now) →
      ∀ b, (validateApiKey hash db apiKey now b).1 = none) ∧
    (∀ k a, db.api_keys.filter (fun r => r.key_hash == hash apiKey) = [k] →
      k.is_active = true → now < k.expires_at →
      db.apps.find? (fun r => r.id == k.app_id) = some a →
      ∀ b, (validateApiKey hash db apiKey now b).1 =
        some { key_id := k.id, app_id := k.app_id, expires_at := k.expires_at,
               app_name := a.app_name, app_url := a.app_url,
               user_id := a.user_id }) ∧
    (∀ b1 b2, (validateApiKey hash db apiKey now b1).1 =
      (validateApiKey hash db apiKey now b2).1) := by
  refine ⟨?_, ?_, ?_⟩
  · intro hall b
    have hf : db.api_keys.filter (fun k =>
        k.key_hash == hash apiKey && k.is_active && decide (now < k.expires_at)) = [] := by
      apply List.filter_eq_nil_iff.2
      intro k hk hP
      obtain ⟨⟨h1, h2⟩, h3⟩ : (k.key_hash = hash apiKey ∧ k.is_active = true) ∧
          now < k.expires_at := by simpa using hP
      cases hall k hk h1 with
      | inl h => rw [h2] at h; exact absurd h (by decide)
      | inr h => omega
    simp [validateApiKey, hf]
  · intro k a hu hact hexp hfind b
    have hfull : db.api_keys.filter (fun r =>
        r.key_hash == hash apiKey && r.is_active && decide (now < r.expires_at)) = [k] := by
      have hcongr : db.api_keys.filter (fun r =>
          r.key_hash == hash apiKey && r.is_active && decide (now < r.expires_at)) =
        db.api_keys.filter (fun r =>
          (r.is_active && decide (now < r.expires_at)) && (r.key_hash == hash apiKey)) := by
        apply List.filter_congr
        intro r _
        cases r.key_hash == hash apiKey <;> cases r.is_active <;>
          cases hd : decide (now < r.expires_at) <;> rfl
      rw [hcongr, ← List.filter_filter, hu]
      simp [hact, hexp]
    simp [validateApiKey, hfull, hfind]
  · intro b1 b2
    simp only [validateApiKey]
    cases hj : (db.api_keys.filter (fun k =>
        k.key_hash == hash apiKey && k.is_active && decide (now < k.expires_at))).filterMap
        (fun k => (db.apps.find? (fun a => a.id == k.app_id)).map (fun a =>
          ({ key_id := k.id, app_id := k.app_id, expires_at := k.expires_at,
             app_name := a.app_name, app_url := a.app_url,
             user_id := a.user_id } : TenantCtx))) with
    | nil => simp [hj]
    | cons r t => simp [hj]

/-- Witness for C5: in `db1` at time 50 the active, unexpired `key1`
resolves to the tenant context of `app1`; in `db1r` (where `key1` is
revoked) the same key resolves to absent. -/
theorem validateApiKey_spec_witness :
    (validateApiKey hId db1 "sbx_secret1" 50 true).1 =
      some { key_id := "k1", app_id := "a1", expires_at := 100,
             app_name := "T", app_url := "https://x.com", user_id := "u1" } ∧
    (validateApiKey hId db1r "sbx_secret1" 50 true).1 = none := by
  constructor
  · exact (validateApiKey_spec hId db1 "sbx_secret1" 50).2.1 key1 app1
      (by decide) rfl (by decide) rfl true
  · exact (validateApiKey_spec hId db1r "sbx_secret1" 50).1 (by decide) true

end AnalyticApp

namespace AnalyticApp

/-! ## C6 -/

/-- C6: the success of `collectEvent` is determined solely by the durable
insert of the Event row — it is the same Boolean as the insert's success,
for every fate of the fire-and-forget recompute; when the insert fails
the caller gets the single opaque error and nothing is written (in
particular no recompute is triggered); when the insert succeeds the
caller gets the row back even if the recompute fails, with the event
durable and the summaries untouched by the failed recompute; and when the
recompute does run, it runs on the post-insert store. -/
theorem collectEvent_spec (db : Db) (appId : String) (d : EventData)
    (newId : String) (now : Nat) :
    (∀ insertOk summaryOk,
      ((collectEvent db appId d newId now insertOk summaryOk).2).isOk =
        (insertEvent db appId d newId now insertOk).isOk) ∧
    (∀ insertOk summaryOk e,
      insertEvent db appId d newId now insertOk = .error e →
      collectEvent db appId d newId now insertOk summaryOk =
        (db, .error .FailedToCollect)) ∧
    (∀ db1 row, insertEvent db appId d newId now true = .ok (db1, row) →
      collectEvent db appId d newId now true false = (db1, .ok row) ∧
      db1.events = db.events ++ [row] ∧ db1.summaries = db.summaries ∧
      collectEvent db appId d newId now true true =
        (updateEventSummary db1 appId d.event (d.timestamp.getD now) now, .ok row)) := by
  refine ⟨?_, ?_, ?_⟩
  · intro insertOk summaryOk
    cases hi : insertEvent db appId d newId now insertOk with
    | error e => simp [collectEvent, hi, Except.isOk, Except.toBool]
    | ok p =>
      obtain ⟨db1, row⟩ := p
      simp [collectEvent, hi, Except.isOk, Except.toBool]
  · intro insertOk summaryOk e h
    simp [collectEvent, h]
  · intro db1 row h
    refine ⟨by simp [collectEvent, h], ?_, ?_, by simp [collectEvent, h]⟩
    · simp only [insertEvent] at h
      rw [if_neg (by decide : ¬(true = false))] at h
      cases ht : d.timestamp with
      | none => rw [ht] at h; exact Except.noConfusion h
      | some ts =>
        rw [ht] at h
        injection h with h5
        injection h5 with h3 h4
        rw [← h3, ← h4]
    · simp only [insertEvent] at h
      rw [if_neg (by decide : ¬(true = false))] at h
      cases ht : d.timestamp with
      | none => rw [ht] at h; exact Except.noConfusion h
      | some ts =>
        rw [ht] at h
        injection h with h5
        injection h5 with h3 h4
        rw [← h3]

/-- Witness for C6: ingesting a concrete event into `db1` with a failing
recompute still succeeds with the event durable and the summaries
untouched, while a failing insert returns the single opaque error and
leaves the store unchanged. -/
theorem collectEvent_spec_witness :
    (collectEvent db1 "a1" evPayload1 "e1" 40 true false =
      ({ db1 with events := [evRow1] }, .ok evRow1) ∧
      ({ db1 with events := [evRow1] } : Db).events = db1.events ++ [evRow1] ∧
      ({ db1 with events := [evRow1] } : Db).summaries = db1.summaries) ∧
    collectEvent db1 "a1" evPayload1 "e1" 40 false false =
      (db1, .error .FailedToCollect) := by
  have h := (collectEvent_spec db1 "a1" evPayload1 "e1" 40).2.2
    { db1 with events := [evRow1] } evRow1 (by rfl)
  exact ⟨⟨h.1, h.2.1, h.2.2.1⟩,
    (collectEvent_spec db1 "a1" evPayload1 "e1" 40).2.1 false false
      .StorageFault (by rfl)⟩

end AnalyticApp

namespace AnalyticApp

/-! ## C8 -/

/-- C8 (divergence witness): for the repository's own minimal-payload
shape — an ingest body with no timestamp — the controller defaults the
IP address to the transport origin, but no layer defaults the timestamp:
the INSERT lists the `timestamp` column and sends SQL `NULL` for the
omitted value, which bypasses the `DEFAULT CURRENT_TIMESTAMP` of the
`NOT NULL` column, so `collectEvent` fails with its opaque error and no
row is stored — instead of storing a row whose timestamp defaults to
capture time. -/
theorem collectEvent_minimal_no_default :
    collectEvent db1 "a1" (controllerEventData minimalBody "203.0.113.5") "e1" 42 true true =
      (db1, .error .FailedToCollect) ∧
    (controllerEventData minimalBody "203.0.113.5").ipAddress = some "203.0.113.5" ∧
    (controllerEventData minimalBody "203.0.113.5").timestamp = none := by
  exact ⟨rfl, rfl, rfl⟩

end AnalyticApp

namespace AnalyticApp

/-! ## Helper lemmas about the summary upsert -/

/-- the upsert's field update does not change the uniqueness-key fields. -/
lemma sameKey_update (appId eventType : String) (date : Nat) (s : SummaryRow)
    (total uniq : Nat) (dd : List (String × Nat)) (now : Nat) :
    sameKey appId eventType date
      { s with total_count := total, unique_users := uniq,
               device_data := dd, updated_at := now } =
      sameKey appId eventType date s := rfl

/-- after an upsert into a store holding at most one row for the key, the
rows matching the key are exactly one row carrying the upserted aggregate
fields. -/
lemma filter_upsertSummary (l : List SummaryRow) (appId eventType : String)
    (date total uniq : Nat) (dd : List (String × Nat)) (now : Nat)
    (hlen : (l.filter (sameKey appId eventType date)).length ≤ 1) :
    ∃ r, ((upsertSummary l appId eventType date total uniq dd now).filter
        (sameKey appId eventType date)) = [r] ∧
      r.total_count = total ∧ r.unique_users = uniq ∧
      r.device_data = dd ∧ r.updated_at = now := by
  by_cases hany : l.any (sameKey appId eventType date) = true
  · obtain ⟨s0, hs0, hks0⟩ := List.any_eq_true.1 hany
    have hmem : s0 ∈ l.filter (sameKey appId eventType date) :=
      List.mem_filter.2 ⟨hs0, hks0⟩
    have hlen1 : (l.filter (sameKey appId eventType date)).length = 1 := by
      have hpos : 0 < (l.filter (sameKey appId eventType date)).length :=
        List.length_pos.2 (List.ne_nil_of_mem hmem)
      omega
    obtain ⟨r0, hr0⟩ := List.length_eq_one.1 hlen1
    have hkr0 : sameKey appId eventType date r0 = true := by
      have : r0 ∈ l.filter (sameKey appId eventType date) := by
        rw [hr0]; exact List.mem_cons_self r0 []
      exact (List.mem_filter.1 this).2
    refine ⟨{ r0 with total_count := total, unique_users := uniq, device_data := dd, updated_at := now }, ?_, rfl, rfl, rfl, rfl⟩
    simp only [upsertSummary]
    rw [if_pos hany, List.filter_map]
    have hpf : l.filter ((sameKey appId eventType date) ∘ (fun s =>
        if sameKey appId eventType date s then
          { s with total_count := total, unique_users := uniq,
                   device_data := dd, updated_at := now }
        else s)) = l.filter (sameKey appId eventType date) := by
      apply List.filter_congr
      intro s _
      by_cases hks : sameKey appId eventType date s = true
      · simp only [Function.comp_apply, if_pos hks, sameKey_update]
      · simp only [Function.comp_apply, if_neg hks]
    rw [hpf, hr0]
    simp [hkr0]
  · have hnone : l.filter (sameKey appId eventType date) = [] := by
      apply List.filter_eq_nil_iff.2
      intro s hs hks
      exact absurd (List.any_eq_true.2 ⟨s, hs, hks⟩) hany
    refine ⟨({ app_id := appId, event_type := eventType, date := date,
               total_count := total, unique_users := uniq, device_data := dd,
               created_at := now, updated_at := now } : SummaryRow),
      ?_, rfl, rfl, rfl, rfl⟩
    simp only [upsertSummary]
    rw [if_neg hany, List.filter_append, hnone]
    simp [sameKey]

/-- after one recompute, the rows matching the key are exactly one row
carrying the aggregates recomputed from the raw events. -/
lemma updateEventSummary_stats (db : Db) (appId eventType : String)
    (ts now : Nat)
    (hkey : (db.summaries.filter (sameKey appId eventType (dayOf ts))).length ≤ 1) :
    ∃ r, ((updateEventSummary db appId eventType ts now).summaries.filter
        (sameKey appId eventType (dayOf ts))) = [r] ∧
      r.total_count = (matchingEvents db.events appId eventType (dayOf ts)).length ∧
      r.unique_users = countDistinctUsers (matchingEvents db.events appId eventType (dayOf ts)) ∧
      r.device_data = deviceData (matchingEvents db.events appId eventType (dayOf ts)) ∧
      r.updated_at = now :=
  filter_upsertSummary db.summaries appId eventType (dayOf ts)
    (matchingEvents db.events appId eventType (dayOf ts)).length
    (countDistinctUsers (matchingEvents db.events appId eventType (dayOf ts)))
    (deviceData (matchingEvents db.events appId eventType (dayOf ts))) now hkey

end AnalyticApp

namespace AnalyticApp

/-! ## C10 -/

/-- C10: for a key with no matching Event rows, `updateEventSummary`
still upserts: afterwards exactly one summary row exists for the key,
with `total_count = 0`, `unique_users = 0` and an empty device map — the
write is not skipped and no row is deleted. -/
theorem updateEventSummary_empty_key (db : Db) (appId eventType : String)
    (ts now : Nat)
    (hkey : (db.summaries.filter (sameKey appId eventType (dayOf ts))).length ≤ 1)
    (hempty : matchingEvents db.events appId eventType (dayOf ts) = []) :
    ∃ r, ((updateEventSummary db appId eventType ts now).summaries.filter
        (sameKey appId eventType (dayOf ts))) = [r] ∧
      r.total_count = 0 ∧ r.unique_users = 0 ∧ r.device_data = [] := by
  obtain ⟨r, h1, h2, h3, h4, _⟩ := updateEventSummary_stats db appId eventType ts now hkey
  rw [hempty] at h2 h3 h4
  refine ⟨r, h1, by simpa using h2, ?_, ?_⟩
  · rw [h3]; rfl
  · rw [h4]; rfl

/-- Witness for C10: recomputing the key `("a1", "click", day 0)` in
`db1`, which has no events at all, still stores exactly one all-zero
summary row. -/
theorem updateEventSummary_empty_key_witness :
    ∃ r, ((updateEventSummary db1 "a1" "click" 0 9).summaries.filter
        (sameKey "a1" "click" (dayOf 0))) = [r] ∧
      r.total_count = 0 ∧ r.unique_users = 0 ∧ r.device_data = [] :=
  updateEventSummary_empty_key db1 "a1" "click" 0 9 (by decide) (by decide)

end AnalyticApp

namespace AnalyticApp

/-! ## Helper lemmas about the device breakdown -/

/-- folding `jsonbInsert` over pairs whose keys collide neither with the
accumulator nor among themselves just appends them. -/
lemma foldl_jsonbInsert (l : List (String × Nat)) :
    ∀ acc : List (String × Nat),
      ((acc.map Prod.fst) ++ (l.map Prod.fst)).Nodup →
      List.foldl (fun m p => jsonbInsert m p.1 p.2) acc l = acc ++ l := by
  induction l with
  | nil => intro acc _; simp
  | cons p l ih =>
    intro acc h
    have hassoc : acc.map Prod.fst ++ (p :: l).map Prod.fst =
        (acc.map Prod.fst ++ [p.1]) ++ l.map Prod.fst := by simp
    rw [hassoc] at h
    have hsplit := List.nodup_append.1 h
    have hnotin : p.1 ∉ acc.map Prod.fst := by
      obtain ⟨-, -, hdisj⟩ := List.nodup_append.1 hsplit.1
      intro hc
      exact hdisj hc (List.mem_singleton.2 rfl)
    have hins : jsonbInsert acc p.1 p.2 = acc ++ [(p.1, p.2)] := by
      have hany : acc.any (fun q => q.1 == p.1) = false := by
        cases hq : acc.any (fun q => q.1 == p.1) with
        | false => rfl
        | true =>
          obtain ⟨q, hq1, hq2⟩ := List.any_eq_true.1 hq
          have hq3 : q.1 = p.1 := by simpa using hq2
          exact absurd (hq3 ▸ List.mem_map_of_mem Prod.fst hq1) hnotin
      simp [jsonbInsert, hany]
    rw [List.foldl_cons, hins, ih (acc ++ [(p.1, p.2)]) (by simpa using h)]
    simp

/-- `jsonb_object_agg` over pairs with pairwise-distinct keys is the
identity. -/
lemma jsonbObjectAgg_nodup (l : List (String × Nat))
    (h : (l.map Prod.fst).Nodup) : jsonbObjectAgg l = l := by
  have := foldl_jsonbInsert l [] (by simpa using h)
  simpa [jsonbObjectAgg] using this

/-- the `==` used by `deviceGroups` agrees with the `BEq` instance
derived from decidable equality, so the two `count` functions agree. -/
lemma count_optionStr_ofDecEq (d : Option String) (L : List (Option String)) :
    L.count d =
      @List.count (Option String) instBEqOfDecidableEq d L := by
  induction L with
  | nil => rfl
  | cons x xs ih =>
    simp only [List.count_cons, ih]
    by_cases h : x = d
    · subst h; simp
    · simp [h]

/-- counting each deduplicated element recovers the list length (the
library lemma transported along `count_optionStr_ofDecEq`). -/
lemma sum_count_dedup_optionStr (L : List (Option String)) :
    (L.dedup.map (fun d => L.count d)).sum = L.length := by
  have h := List.sum_map_count_dedup_eq_length L
  rw [← h]
  apply congrArg List.sum
  apply List.map_congr_left
  intro d _
  exact count_optionStr_ofDecEq d L

/-- when no event carries the literal device string `"unknown"` (the
validated ingest enum is `{mobile, desktop, tablet, other}`), the device
buckets of `deviceData` sum to the number of events. -/
lemma sum_deviceData (l : List EventRow)
    (hdev : ∀ e ∈ l, e.device ≠ some "unknown") :
    ((deviceData l).map Prod.snd).sum = l.length := by
  have hne : ∀ d ∈ (l.map (fun e => e.device)).dedup, d ≠ some "unknown" := by
    intro d hd
    obtain ⟨e, he, hex⟩ := List.mem_map.1 (List.mem_dedup.1 hd)
    rw [← hex]
    exact hdev e he
  have hkeys : (((deviceGroups l).map (fun p => (p.1.getD "unknown", p.2))).map
      Prod.fst).Nodup := by
    have hrw : ((deviceGroups l).map (fun p => (p.1.getD "unknown", p.2))).map
        Prod.fst =
        ((l.map (fun e => e.device)).dedup).map (fun d => d.getD "unknown") := by
      simp [deviceGroups, List.map_map]
    rw [hrw]
    apply List.Nodup.map_on ?_ (List.nodup_dedup _)
    intro x hx y hy hxy
    cases x with
    | none =>
      cases y with
      | none => rfl
      | some b =>
        exfalso
        apply hne (some b) hy
        simp only [Option.getD] at hxy
        rw [← hxy]
    | some a =>
      cases y with
      | none =>
        exfalso
        apply hne (some a) hx
        simp only [Option.getD] at hxy
        rw [hxy]
      | some b => simpa using hxy
  have hagg : deviceData l = (deviceGroups l).map (fun p => (p.1.getD "unknown", p.2)) := by
    simp only [deviceData]
    exact jsonbObjectAgg_nodup _ hkeys
  rw [hagg]
  have hsnd : (((deviceGroups l).map (fun p => (p.1.getD "unknown", p.2))).map
      Prod.snd) =
      ((l.map (fun e => e.device)).dedup).map
        (fun d => (l.map (fun e => e.device)).count d) := by
    simp [deviceGroups, List.map_map]
  rw [hsnd, sum_count_dedup_optionStr, List.length_map]

end AnalyticApp

namespace AnalyticApp

/-! ## C2 -/

/-- C2: after `updateEventSummary(appId, eventType, ts)` the stored
summary row for the key is unique; its `total_count` is the number of
Event rows matching (app, eventType, UTC day of `ts`); its
`unique_users` is the number of distinct non-null `user_id` values among
those rows; and the device buckets (missing devices under the fixed
`'unknown'` bucket) sum to `total_count`.

`hkey` is the `UNIQUE(app_id, event_type, date)` constraint of
`event_summaries`; `hdev` is the boundary contract of §6: the device of
every stored event was validated against the fixed enum
`{mobile, desktop, tablet, other}` (or omitted). -/
theorem updateEventSummary_correct (db : Db) (appId eventType : String)
    (ts now : Nat)
    (hkey : (db.summaries.filter (sameKey appId eventType (dayOf ts))).length ≤ 1)
    (hdev : ∀ e ∈ db.events, e.device = none ∨ e.device = some "mobile" ∨
      e.device = some "desktop" ∨ e.device = some "tablet" ∨ e.device = some "other") :
    ∃ r, ((updateEventSummary db appId eventType ts now).summaries.filter
        (sameKey appId eventType (dayOf ts))) = [r] ∧
      r.total_count = (matchingEvents db.events appId eventType (dayOf ts)).length ∧
      r.unique_users = countDistinctUsers (matchingEvents db.events appId eventType (dayOf ts)) ∧
      ((r.device_data.map Prod.snd).sum = r.total_count) := by
  obtain ⟨r, h1, h2, h3, h4, _⟩ := updateEventSummary_stats db appId eventType ts now hkey
  refine ⟨r, h1, h2, h3, ?_⟩
  rw [h4, h2]
  apply sum_deviceData
  intro e he
  have hm : e ∈ db.events := by
    simp only [matchingEvents] at he
    exact (List.mem_filter.1 he).1
  rcases hdev e hm with h | h | h | h | h <;> simp [h]

/-- Witness for C2: the two-click scenario — two `"click"` events on UTC
day 0, users `u1` and `u2`, both mobile — yields one summary row whose
recomputed counts and device buckets satisfy the stated equalities. -/
theorem updateEventSummary_correct_witness :
    ∃ r, ((updateEventSummary dbEv "a1" "click" 1000 5000).summaries.filter
        (sameKey "a1" "click" (dayOf 1000))) = [r] ∧
      r.total_count = (matchingEvents dbEv.events "a1" "click" (dayOf 1000)).length ∧
      r.unique_users = countDistinctUsers (matchingEvents dbEv.events "a1" "click" (dayOf 1000)) ∧
      ((r.device_data.map Prod.snd).sum = r.total_count) :=
  updateEventSummary_correct dbEv "a1" "click" 1000 5000 (by decide) (by decide)

end AnalyticApp

namespace AnalyticApp

/-! ## Helper lemmas for recompute idempotence -/

/-- after an upsert, some row matches the key. -/
lemma any_upsertSummary (l : List SummaryRow) (appId eventType : String)
    (date total uniq : Nat) (dd : List (String × Nat)) (now : Nat) :
    (upsertSummary l appId eventType date total uniq dd now).any
      (sameKey appId eventType date) = true := by
  by_cases hany : l.any (sameKey appId eventType date) = true
  · simp only [upsertSummary]
    rw [if_pos hany]
    obtain ⟨s, hs, hks⟩ := List.any_eq_true.1 hany
    apply List.any_eq_true.2
    refine ⟨{ s with total_count := total, unique_users := uniq, device_data := dd, updated_at := now }, List.mem_map.2 ⟨s, hs, by simp only [if_pos hks]⟩, ?_⟩
    rw [sameKey_update]
    exact hks
  · simp only [upsertSummary]
    rw [if_neg hany]
    apply List.any_eq_true.2
    refine ⟨({ app_id := appId, event_type := eventType, date := date, total_count := total, unique_users := uniq, device_data := dd, created_at := now, updated_at := now } : SummaryRow), List.mem_append_right _ (List.mem_singleton.2 rfl), ?_⟩
    simp [sameKey]

/-- every key row present after an upsert carries the upserted aggregate
fields. -/
lemma fields_upsertSummary (l : List SummaryRow) (appId eventType : String)
    (date total uniq : Nat) (dd : List (String × Nat)) (now : Nat) :
    ∀ s ∈ upsertSummary l appId eventType date total uniq dd now,
      sameKey appId eventType date s = true →
      s.total_count = total ∧ s.unique_users = uniq ∧
      s.device_data = dd ∧ s.updated_at = now := by
  intro s hs hks
  by_cases hany : l.any (sameKey appId eventType date) = true
  · simp only [upsertSummary] at hs
    rw [if_pos hany] at hs
    obtain ⟨s0, hs0, hfs⟩ := List.mem_map.1 hs
    by_cases hk0 : sameKey appId eventType date s0 = true
    · rw [if_pos hk0] at hfs
      rw [← hfs]
      exact ⟨rfl, rfl, rfl, rfl⟩
    · rw [if_neg hk0] at hfs
      subst hfs
      exact absurd hks hk0
  · simp only [upsertSummary] at hs
    rw [if_neg hany] at hs
    rcases List.mem_append.1 hs with h | h
    · exact absurd (List.any_eq_true.2 ⟨s, h, hks⟩) hany
    · have hsn := List.mem_singleton.1 h
      subst hsn
      exact ⟨rfl, rfl, rfl, rfl⟩

/-- upserting the same aggregates into a store that already holds them
only refreshes `updated_at` on the key rows. -/
lemma upsert_on_existing (L : List SummaryRow) (appId eventType : String)
    (date total uniq : Nat) (dd : List (String × Nat)) (t2 : Nat)
    (hany : L.any (sameKey appId eventType date) = true)
    (hfields : ∀ s ∈ L, sameKey appId eventType date s = true →
      s.total_count = total ∧ s.unique_users = uniq ∧ s.device_data = dd) :
    upsertSummary L appId eventType date total uniq dd t2 =
      L.map (fun s => if sameKey appId eventType date s then
        { s with updated_at := t2 } else s) := by
  simp only [upsertSummary]
  rw [if_pos hany]
  apply List.map_congr_left
  intro s hs
  by_cases hks : sameKey appId eventType date s = true
  · rw [if_pos hks, if_pos hks]
    obtain ⟨e1, e2, e3⟩ := hfields s hs hks
    rw [← e1, ← e2, ← e3]
  · rw [if_neg hks, if_neg hks]

end AnalyticApp

namespace AnalyticApp

/-! ## C3 -/

/-- recomputing never touches the raw events. -/
lemma events_updateEventSummary (db : Db) (appId eventType : String)
    (ts now : Nat) :
    (updateEventSummary db appId eventType ts now).events = db.events := rfl

/-- any nonempty sequence of recomputations of one key (the Event set
unchanged throughout) leaves exactly one row for the key, carrying the
aggregates of a single recompute. -/
lemma iterUpdate_stats (db : Db) (appId eventType : String) (ts : Nat) :
    ∀ times : List Nat, ∀ d : Db, d.events = db.events →
      (d.summaries.filter (sameKey appId eventType (dayOf ts))).length ≤ 1 →
      times ≠ [] →
      ∃ r, ((iterUpdate d appId eventType ts times).summaries.filter
          (sameKey appId eventType (dayOf ts))) = [r] ∧
        r.total_count = (matchingEvents db.events appId eventType (dayOf ts)).length ∧
        r.unique_users = countDistinctUsers (matchingEvents db.events appId eventType (dayOf ts)) ∧
        r.device_data = deviceData (matchingEvents db.events appId eventType (dayOf ts)) := by
  intro times
  induction times with
  | nil => intro d _ _ hne; exact absurd rfl hne
  | cons t ts2 ih =>
    intro d hev hlen _
    by_cases hne2 : ts2 = []
    · subst hne2
      obtain ⟨r, h1, h2, h3, h4, _⟩ := updateEventSummary_stats d appId eventType ts t hlen
      rw [hev] at h2 h3 h4
      exact ⟨r, h1, h2, h3, h4⟩
    · apply ih (updateEventSummary d appId eventType ts t) ?_ ?_ hne2
      · exact hev
      · obtain ⟨r, h1, _, _, _, _⟩ := updateEventSummary_stats d appId eventType ts t hlen
        rw [h1]
        simp

/-- Counterexample for C3 as stated: with the Event set unchanged (empty
store `db1`), recomputing the key `("a1", "click", day 0)` at time 0 and
again at time 1 yields summary rows that are not byte-identical — the
second run refreshes `updated_at`. -/
theorem updateEventSummary_not_byte_identical :
    (updateEventSummary (updateEventSummary db1 "a1" "click" 0 0) "a1" "click" 0 1).summaries ≠
      (updateEventSummary db1 "a1" "click" 0 0).summaries := by decide

/-- C3 (amended): with the Event set unchanged, a second recompute of the
same key leaves every summary row unchanged except that the key row's
`updated_at` is refreshed to the second run's clock time — so two runs at
the same clock instant yield a byte-identical store — and any nonempty
sequence of recomputations leaves exactly one row for the key whose
counts equal those of a single recompute. -/
theorem updateEventSummary_idempotent (db : Db) (appId eventType : String)
    (ts t1 t2 : Nat) :
    ((updateEventSummary (updateEventSummary db appId eventType ts t1)
        appId eventType ts t2).summaries =
      (updateEventSummary db appId eventType ts t1).summaries.map
        (fun s => if sameKey appId eventType (dayOf ts) s then
          { s with updated_at := t2 } else s)) ∧
    (updateEventSummary (updateEventSummary db appId eventType ts t1)
        appId eventType ts t1 =
      updateEventSummary db appId eventType ts t1) ∧
    (∀ times : List Nat, times ≠ [] →
      (db.summaries.filter (sameKey appId eventType (dayOf ts))).length ≤ 1 →
      ∃ r, ((iterUpdate db appId eventType ts times).summaries.filter
          (sameKey appId eventType (dayOf ts))) = [r] ∧
        r.total_count = (matchingEvents db.events appId eventType (dayOf ts)).length ∧
        r.unique_users = countDistinctUsers (matchingEvents db.events appId eventType (dayOf ts)) ∧
        r.device_data = deviceData (matchingEvents db.events appId eventType (dayOf ts))) := by
  refine ⟨?_, ?_, ?_⟩
  · dsimp only [updateEventSummary]
    apply upsert_on_existing
    · exact any_upsertSummary _ _ _ _ _ _ _ _
    · intro s hs hks
      obtain ⟨e1, e2, e3, _⟩ := fields_upsertSummary db.summaries appId eventType
        (dayOf ts) (matchingEvents db.events appId eventType (dayOf ts)).length
        (countDistinctUsers (matchingEvents db.events appId eventType (dayOf ts)))
        (deviceData (matchingEvents db.events appId eventType (dayOf ts))) t1 s hs hks
      exact ⟨e1, e2, e3⟩
  · dsimp only [updateEventSummary]
    have hid : upsertSummary
        (upsertSummary db.summaries appId eventType (dayOf ts)
          (matchingEvents db.events appId eventType (dayOf ts)).length
          (countDistinctUsers (matchingEvents db.events appId eventType (dayOf ts)))
          (deviceData (matchingEvents db.events appId eventType (dayOf ts))) t1)
        appId eventType (dayOf ts)
        (matchingEvents db.events appId eventType (dayOf ts)).length
        (countDistinctUsers (matchingEvents db.events appId eventType (dayOf ts)))
        (deviceData (matchingEvents db.events appId eventType (dayOf ts))) t1 =
        upsertSummary db.summaries appId eventType (dayOf ts)
          (matchingEvents db.events appId eventType (dayOf ts)).length
          (countDistinctUsers (matchingEvents db.events appId eventType (dayOf ts)))
          (deviceData (matchingEvents db.events appId eventType (dayOf ts))) t1 := by
      rw [upsert_on_existing _ _ _ _ _ _ _ _ (any_upsertSummary _ _ _ _ _ _ _ _) ?_]
      · apply Eq.trans (List.map_congr_left ?_) (List.map_id _)
        intro s hs
        by_cases hks : sameKey appId eventType (dayOf ts) s = true
        · rw [if_pos hks]
          obtain ⟨-, -, -, e4⟩ := fields_upsertSummary db.summaries appId eventType
            (dayOf ts) (matchingEvents db.events appId eventType (dayOf ts)).length
            (countDistinctUsers (matchingEvents db.events appId eventType (dayOf ts)))
            (deviceData (matchingEvents db.events appId eventType (dayOf ts))) t1 s hs hks
          rw [← e4]
          rfl
        · rw [if_neg hks]
          rfl
      · intro s hs hks
        obtain ⟨e1, e2, e3, _⟩ := fields_upsertSummary db.summaries appId eventType
          (dayOf ts) (matchingEvents db.events appId eventType (dayOf ts)).length
          (countDistinctUsers (matchingEvents db.events appId eventType (dayOf ts)))
          (deviceData (matchingEvents db.events appId eventType (dayOf ts))) t1 s hs hks
        exact ⟨e1, e2, e3⟩
    rw [hid]
  · intro times hne hlen
    exact iterUpdate_stats db appId eventType ts times db rfl hlen hne

/-- Witness for C3 (amended): two recomputations of the key
`("a1", "click", day 0)` on the empty store `db1` at times 0 and 1 leave
exactly one all-zero summary row for the key. -/
theorem updateEventSummary_idempotent_witness :
    ∃ r, ((iterUpdate db1 "a1" "click" 0 [0, 1]).summaries.filter
        (sameKey "a1" "click" (dayOf 0))) = [r] ∧
      r.total_count = (matchingEvents db1.events "a1" "click" (dayOf 0)).length ∧
      r.unique_users = countDistinctUsers (matchingEvents db1.events "a1" "click" (dayOf 0)) ∧
      r.device_data = deviceData (matchingEvents db1.events "a1" "click" (dayOf 0)) :=
  (updateEventSummary_idempotent db1 "a1" "click" 0 0 1).2.2 [0, 1]
    (by decide) (by decide)

end AnalyticApp
